import Mathlib

/-!
Shallow embedding of the 2048 board engine from `src/js/Board.js`
(class `Board`), together with theorems checking the specification's
claims against it.

Modelling conventions:
* A JS `Tile` is a structure with a `value` and the per-move `merged`
  flag.  The grid `Array<Array<Tile|null>>` of a size-`n` board is a
  total function `Fin n → Fin n → Option Tile` (row, then column).
* In-place mutation is modelled by explicit state passing.
* JS reference comparison `grid[r][c] !== newLine[i]` is modelled as
  value inequality of the `Option Tile` cells.  Within a single move the
  two coincide: `slideAndMerge` keeps surviving tile objects in relative
  order, so a cell keeps its object exactly when it keeps its
  presence/value snapshot, and a merge always frees at least one cell.
* `Math.floor(Math.random() * k)` — an arbitrary index below `k` — is
  modelled by an injected natural number reduced modulo `k`, and the
  90/10 value choice of `addRandomTile` by an injected boolean.
-/

namespace Game2048

/-- A tile: a value and the per-move "already merged" marker
(`Tile.value`, `Tile.merged` in `Tile.js` / spec §3). -/
structure Tile where
  value : Nat
  merged : Bool
deriving DecidableEq, Repr

/-- The grid of a size-`n` board: each cell holds at most one tile.
Indexing is `g r c` (row, column), as `this.grid[r][c]` in `Board.js`. -/
def BoardGrid (n : Nat) : Type := Fin n → Fin n → Option Tile

instance (n : Nat) : DecidableEq (BoardGrid n) :=
  fun g h => Fintype.decidablePiFintype g h

/-- Modelled from the spec: `Tile.canMergeWith` lives in `Tile.js`,
which is absent from `src/`.  Spec §3: two tiles merge when they have
equal value and neither has merged this move ("a tile may merge at most
once per move"). -/
def canMergeWith (a b : Tile) : Bool :=
  a.value == b.value && !a.merged && !b.merged

/-- The merge scan inside `Board.slideAndMerge` (`Board.js` 228-236):
walk the dense (null-free) sequence with index `i`; when the tiles at
`i` and `i+1` can merge, double the tile at `i`, mark it merged, add the
new value to the score, drop the tile at `i+1`, and continue the scan at
the next index.  The nulls the JS code pushes during the loop only ever
sit behind the scan index, so they are re-appended by `slideAndMerge`
instead. -/
def mergeScan : List Tile → List Tile × Nat
  | [] => ([], 0)
  | [t] => ([t], 0)
  | a :: b :: rest =>
    if canMergeWith a b then
      let res := mergeScan rest
      (⟨a.value * 2, true⟩ :: res.1, a.value * 2 + res.2)
    else
      let res := mergeScan (b :: rest)
      (a :: res.1, res.2)

/-- `Board.slideAndMerge` (`Board.js` 225-239): drop the empty slots,
run the merge scan, then pad with empty slots back to the original
length.  Returns the resolved line and the score gained from merges. -/
def slideAndMerge (line : List (Option Tile)) : List (Option Tile) × Nat :=
  let arr := line.filterMap id
  let res := mergeScan arr
  (res.1.map some ++ List.replicate (line.length - res.1.length) none, res.2)

/-- Clearing one tile's merge marker (`tile.merged = false`). -/
def clearTile (t : Tile) : Tile := { t with merged := false }

/-- The flag-reset loop at the top of `Board.move` / `Board.moveWithScore`
(`Board.js` 83-87, 154-158): every tile's `merged` marker is cleared
before the direction is inspected. -/
def resetMerged {n : Nat} (g : BoardGrid n) : BoardGrid n :=
  fun r c => (g r c).map clearTile

/-- Column `c` of the grid read top to bottom, as the `line` built for
`'up'`/`'down'` in `Board.js`. -/
def lineOfCol {n : Nat} (g : BoardGrid n) (c : Fin n) : List (Option Tile) :=
  List.ofFn fun r => g r c

/-- Row `r` of the grid read left to right, as the `line` built for
`'left'`/`'right'` in `Board.js`. -/
def lineOfRow {n : Nat} (g : BoardGrid n) (r : Fin n) : List (Option Tile) :=
  List.ofFn fun c => g r c

/-- One line of the move: for `'up'`/`'left'` the line is resolved as
read (`rev = false`); for `'down'`/`'right'` it is reversed, resolved,
and reversed back (`line.reverse()` / `newLine.reverse()` in
`Board.js`). -/
def runLine (rev : Bool) (line : List (Option Tile)) :
    List (Option Tile) × Nat :=
  if rev then
    let res := slideAndMerge line.reverse
    (res.1.reverse, res.2)
  else
    slideAndMerge line

/-- Result of `Board.moveWithScore`: the grid after the move, the
`moved` flag, and the accumulated `mergedScore`. -/
structure MoveResult (n : Nat) where
  grid : BoardGrid n
  moved : Bool
  score : Nat

/-- The `'up'`/`'down'` branches of `Board.moveWithScore`: each column
is resolved as a line, `moved` is set when some cell's occupant differs
from the resolved line, and the merge scores are summed. -/
def resolveCols {n : Nat} (rev : Bool) (g : BoardGrid n) : MoveResult n :=
  let res := fun c => runLine rev (lineOfCol g c)
  { grid := fun r c => (res c).1.getD r none
    moved := (List.finRange n).any fun c =>
      (List.finRange n).any fun r => g r c != (res c).1.getD r none
    score := ((List.finRange n).map fun c => (res c).2).sum }

/-- The `'left'`/`'right'` branches of `Board.moveWithScore`: as
`resolveCols`, with rows as the lines. -/
def resolveRows {n : Nat} (rev : Bool) (g : BoardGrid n) : MoveResult n :=
  let res := fun r => runLine rev (lineOfRow g r)
  { grid := fun r c => (res r).1.getD c none
    moved := (List.finRange n).any fun r =>
      (List.finRange n).any fun c => g r c != (res r).1.getD c none
    score := ((List.finRange n).map fun r => (res r).2).sum }

/-- `Board.moveWithScore` (`Board.js` 150-217): clear all merge markers,
then dispatch on the direction string; any unrecognized direction leaves
the (flag-reset) grid as is with `moved = false` and score 0. -/
def moveWithScore {n : Nat} (direction : String) (g : BoardGrid n) :
    MoveResult n :=
  let g0 := resetMerged g
  if direction = "up" then resolveCols false g0
  else if direction = "down" then resolveCols true g0
  else if direction = "left" then resolveRows false g0
  else if direction = "right" then resolveRows true g0
  else { grid := g0, moved := false, score := 0 }

/-- The `'up'`/`'down'` branches of `Board.move` (`Board.js` 88-113):
identical to `resolveCols` except that `mergedScore` is discarded. -/
def resolveColsNoScore {n : Nat} (rev : Bool) (g : BoardGrid n) :
    BoardGrid n × Bool :=
  let res := fun c => runLine rev (lineOfCol g c)
  (fun r c => (res c).1.getD r none,
    (List.finRange n).any fun c =>
      (List.finRange n).any fun r => g r c != (res c).1.getD r none)

/-- The `'left'`/`'right'` branches of `Board.move` (`Board.js`
114-139): identical to `resolveRows` except that `mergedScore` is
discarded. -/
def resolveRowsNoScore {n : Nat} (rev : Bool) (g : BoardGrid n) :
    BoardGrid n × Bool :=
  let res := fun r => runLine rev (lineOfRow g r)
  (fun r c => (res r).1.getD c none,
    (List.finRange n).any fun r =>
      (List.finRange n).any fun c => g r c != (res r).1.getD c none)

/-- `Board.move` (`Board.js` 80-142): the scoreless twin of
`Board.moveWithScore`, returning the new grid and the `moved` flag. -/
def move {n : Nat} (direction : String) (g : BoardGrid n) :
    BoardGrid n × Bool :=
  let g0 := resetMerged g
  if direction = "up" then resolveColsNoScore false g0
  else if direction = "down" then resolveColsNoScore true g0
  else if direction = "left" then resolveRowsNoScore false g0
  else if direction = "right" then resolveRowsNoScore true g0
  else (g0, false)

/-- The all-empty grid, as produced by `Board.createEmptyBoard` for a
size-`n` board. -/
def emptyGrid (n : Nat) : BoardGrid n := fun _ _ => none

/-- A grid respecting the data model of spec §3: every tile value is
positive (the spec demands powers of two ≥ 2; positivity is the part
these proofs need). -/
def validGrid {n : Nat} (g : BoardGrid n) : Prop :=
  ∀ (r c : Fin n) (t : Tile), g r c = some t → 0 < t.value

/-- The transposed grid (a proof device relating the row-wise and
column-wise halves of the move code, which are mirror images). -/
def transpose {n : Nat} (g : BoardGrid n) : BoardGrid n := fun r c => g c r

/-- A concrete 4×4 grid whose top row is four tiles of value 2 and whose
other cells are empty. -/
def rowOfTwos : BoardGrid 4 := fun r _ =>
  if r = 0 then some ⟨2, false⟩ else none

/-- The value held by a cell, with 0 for an empty cell (used to sum tile
values over lines and grids). -/
def cellVal (o : Option Tile) : Nat := (o.map Tile.value).getD 0

/-- Sum of the tile values on a line. -/
def lineSum (l : List (Option Tile)) : Nat := (l.map cellVal).sum

/-- Sum of all tile values on the board. -/
def sumGrid {n : Nat} (g : BoardGrid n) : Nat :=
  ∑ p : Fin n × Fin n, cellVal (g p.1 p.2)

/-- The four neighbor offsets `[[0,1],[1,0],[-1,0],[0,-1]]` scanned by
`Board.hasMoves` (`Board.js` 250). -/
def neighborOffsets : List (Int × Int) := [(0, 1), (1, 0), (-1, 0), (0, -1)]

/-- The bounds check `nr >= 0 && nr < size && nc >= 0 && nc < size` of
`Board.hasMoves` (`Board.js` 252) followed by the cell read: the cell at
integer coordinates, or `none` when out of bounds. -/
def cellAt {n : Nat} (g : BoardGrid n) (nr nc : Int) : Option Tile :=
  if h : 0 ≤ nr ∧ nr < (n : Int) ∧ 0 ≤ nc ∧ nc < (n : Int) then
    g ⟨nr.toNat, by omega⟩ ⟨nc.toNat, by omega⟩
  else none

/-- The neighbor test inside `Board.hasMoves` (`Board.js` 251-255):
bounds-check `r + dr, c + dc` and compare the neighbor's value (if a
neighbor tile exists there) with the current tile's. -/
def neighborEqualValue {n : Nat} (g : BoardGrid n) (t : Tile) (r c : Fin n)
    (d : Int × Int) : Bool :=
  match cellAt g ((r : Nat) + d.1) ((c : Nat) + d.2) with
  | some u => t.value == u.value
  | none => false

/-- `Board.hasMoves` (`Board.js` 245-260): scan all cells; an empty cell
or a 4-neighbor of equal value makes the function return true, and it
returns false only after the full scan finds neither. -/
def hasMoves {n : Nat} (g : BoardGrid n) : Bool :=
  (List.finRange n).any fun r => (List.finRange n).any fun c =>
    match g r c with
    | none => true
    | some t => neighborOffsets.any fun d => neighborEqualValue g t r c d

/-- Spec-side 4-adjacency of two coordinates: same row and columns
differing by one, or same column and rows differing by one (diagonals
excluded). -/
def adjacentCoords {n : Nat} (p q : Fin n × Fin n) : Prop :=
  (p.1 = q.1 ∧ ((p.2 : Nat) + 1 = (q.2 : Nat) ∨ (q.2 : Nat) + 1 = (p.2 : Nat))) ∨
  (p.2 = q.2 ∧ ((p.1 : Nat) + 1 = (q.1 : Nat) ∨ (q.1 : Nat) + 1 = (p.1 : Nat)))

/-- `Board.getEmptyCells` (`Board.js` 32-40): the empty coordinates in
row-major scan order. -/
def getEmptyCells {n : Nat} (g : BoardGrid n) : List (Fin n × Fin n) :=
  (List.finRange n).flatMap fun r =>
    (List.finRange n).filterMap fun c =>
      if g r c = none then some (r, c) else none

/-- `Board.addRandomTile` (`Board.js` 47-53): if no cell is empty return
false without touching the grid; otherwise place one fresh tile in a
randomly chosen empty cell.  The random index is injected as `i` (taken
modulo the number of empty cells) and the 90/10 value draw as the
boolean `four`.  The fresh tile's clear `merged` flag is modelled from
the spec: the `Tile` constructor lives in `Tile.js`, absent from `src/`;
spec §3 makes `mergedThisMove` a per-move marker that is false until the
tile merges. -/
def addRandomTile {n : Nat} (i : Nat) (four : Bool) (g : BoardGrid n) :
    BoardGrid n × Bool :=
  let empty := getEmptyCells g
  if h : empty.length = 0 then (g, false)
  else
    let p := empty.get ⟨i % empty.length, Nat.mod_lt _ (Nat.pos_of_ne_zero h)⟩
    (fun r c => if r = p.1 ∧ c = p.2 then some ⟨if four then 4 else 2, false⟩
      else g r c, true)

/-- `Board.reset` (`Board.js` 59-72): clear the grid; if fewer than two
cells are empty stop; otherwise place a tile of value 2 at a random
empty cell, splice that cell out of the empty list, and place a second
tile of value 2 at a random remaining cell.  The two random indices are
injected as `i1`, `i2` (modulo the respective list lengths). -/
def reset {n : Nat} (i1 i2 : Nat) : BoardGrid n :=
  let g : BoardGrid n := emptyGrid n
  let empty := getEmptyCells g
  if h : empty.length < 2 then g
  else
    let k1 : Nat := i1 % empty.length
    have hk1 : k1 < empty.length := Nat.mod_lt _ (by omega)
    let p1 := empty.get ⟨k1, hk1⟩
    let g1 : BoardGrid n := fun r c =>
      if r = p1.1 ∧ c = p1.2 then some ⟨2, false⟩ else g r c
    let empty2 := empty.eraseIdx k1
    have hlen2 : 0 < empty2.length := by
      have he : empty2.length = empty.length - 1 := List.length_eraseIdx_of_lt hk1
      omega
    let p2 := empty2.get ⟨i2 % empty2.length, Nat.mod_lt _ hlen2⟩
    fun r c => if r = p2.1 ∧ c = p2.2 then some ⟨2, false⟩ else g1 r c

/-- The `Board` constructor together with `createEmptyBoard` (`Board.js`
15-26), kept as a literal list of rows to expose the degenerate shapes:
`Array.from(\x7blength: size\x7d)` yields an empty array for any
non-positive `size`, so the constructor performs no validation and never
throws. -/
def createBoardJs (size : Int) : List (List (Option Tile)) :=
  List.replicate size.toNat (List.replicate size.toNat none)

end Game2048

/-- C1: a line of four tiles of value 2 (merge markers clear, as they
are at the point `slideAndMerge` is called from a move) resolves to
`[4,4,_,_]` with merged score 4 + 4 = 8: equal tiles merge pairwise into
two double-value tiles, never into one quadruple-value tile. -/
theorem C1_four_twos_merge_pairwise :
    Game2048.slideAndMerge
        (List.replicate 4 (some ⟨2, false⟩)) =
      ([some ⟨4, true⟩, some ⟨4, true⟩, none, none], 8) := by
  decide

/-- C10: `Board.move` and `Board.moveWithScore` are equivalent: from the
same grid and direction they report the same `moved` flag and produce
the same resulting grid. -/
theorem C10_move_eq_moveWithScore {n : Nat} (direction : String)
    (g : Game2048.BoardGrid n) :
    Game2048.move direction g =
      ((Game2048.moveWithScore direction g).grid,
        (Game2048.moveWithScore direction g).moved) := by
  unfold Game2048.move Game2048.moveWithScore
  unfold Game2048.resolveColsNoScore Game2048.resolveRowsNoScore
    Game2048.resolveCols Game2048.resolveRows
  split_ifs <;> rfl

/-- C8: an unrecognized direction string is a silent no-op:
`moved = false`, score 0, no error is possible (the function is total),
and every cell keeps its presence and value. -/
theorem C8_invalid_direction_noop {n : Nat} (direction : String)
    (g : Game2048.BoardGrid n)
    (h1 : direction ≠ "up") (h2 : direction ≠ "down")
    (h3 : direction ≠ "left") (h4 : direction ≠ "right") :
    (Game2048.moveWithScore direction g).moved = false ∧
      (Game2048.moveWithScore direction g).score = 0 ∧
      ∀ r c : Fin n,
        ((Game2048.moveWithScore direction g).grid r c).map Game2048.Tile.value =
          (g r c).map Game2048.Tile.value := by
  have hd : Game2048.moveWithScore direction g =
      { grid := Game2048.resetMerged g, moved := false, score := 0 } := by
    unfold Game2048.moveWithScore
    simp only [h1, h2, h3, h4, if_false]
  rw [hd]
  exact ⟨rfl, rfl, fun r c => by
    show ((g r c).map Game2048.clearTile).map Game2048.Tile.value = _
    cases g r c <;> rfl⟩

/-- Witness for C8 at the concrete direction `"diagonal"` on the empty
4×4 grid. -/
theorem C8_invalid_direction_noop_witness :
    (Game2048.moveWithScore "diagonal" (Game2048.emptyGrid 4)).moved = false ∧
      (Game2048.moveWithScore "diagonal" (Game2048.emptyGrid 4)).score = 0 ∧
      ∀ r c : Fin 4,
        ((Game2048.moveWithScore "diagonal" (Game2048.emptyGrid 4)).grid r c).map
            Game2048.Tile.value =
          (Game2048.emptyGrid 4 r c).map Game2048.Tile.value :=
  C8_invalid_direction_noop "diagonal" (Game2048.emptyGrid 4)
    (by decide) (by decide) (by decide) (by decide)

/-- Counterexample to C2 as stated: on the 4×4 grid whose top row is
`[2,2,2,2]`, a first `"left"` resolution yields `[4,4,_,_]`, and a
second `"left"` resolution with no intervening spawn merges the two 4s
and reports `moved = true`, not `false`. -/
theorem C2_counterexample_second_move_true :
    (Game2048.moveWithScore "left"
        (Game2048.moveWithScore "left" Game2048.rowOfTwos).grid).moved = true := by
  decide

namespace Game2048

theorem mergeScan_length_le : ∀ ts : List Tile, (mergeScan ts).1.length ≤ ts.length
  | [] => Nat.le_refl _
  | [_] => Nat.le_refl _
  | a :: b :: rest => by
    by_cases hm : canMergeWith a b = true
    · have ih := mergeScan_length_le rest
      simp only [mergeScan, if_pos hm, List.length_cons]
      omega
    · have ih := mergeScan_length_le (b :: rest)
      simp only [mergeScan, if_neg hm, List.length_cons]
      simp only [List.length_cons] at ih
      omega

theorem canMergeWith_value {a b : Tile} (h : canMergeWith a b = true) :
    a.value = b.value := by
  simp only [canMergeWith, Bool.and_eq_true, beq_iff_eq] at h
  exact h.1.1

theorem mergeScan_sum : ∀ ts : List Tile,
    ((mergeScan ts).1.map Tile.value).sum = (ts.map Tile.value).sum
  | [] => rfl
  | [_] => rfl
  | a :: b :: rest => by
    by_cases hm : canMergeWith a b = true
    · have ih := mergeScan_sum rest
      have hv := canMergeWith_value hm
      simp only [mergeScan, if_pos hm, List.map_cons, List.sum_cons]
      omega
    · have ih := mergeScan_sum (b :: rest)
      simp only [mergeScan, if_neg hm, List.map_cons, List.sum_cons]
      simp only [List.map_cons, List.sum_cons] at ih
      omega

theorem mergeScan_pos : ∀ ts : List Tile, (∀ t ∈ ts, 0 < t.value) →
    ∀ t ∈ (mergeScan ts).1, 0 < t.value
  | [], _ => by simp [mergeScan]
  | [t], h => by simpa [mergeScan] using h
  | a :: b :: rest, h => by
    by_cases hm : canMergeWith a b = true
    · have ih := mergeScan_pos rest fun t ht => h t (by simp [ht])
      simp only [mergeScan, if_pos hm]
      intro t ht
      rcases List.mem_cons.mp ht with h1 | h1
      · subst h1
        have := h a (by simp)
        show 0 < a.value * 2
        omega
      · exact ih t h1
    · have ih := mergeScan_pos (b :: rest) fun t ht => h t (by
        rcases List.mem_cons.mp ht with h1 | h1
        · simp [h1]
        · simp [h1])
      simp only [mergeScan, if_neg hm]
      intro t ht
      rcases List.mem_cons.mp ht with h1 | h1
      · subst h1; exact h t (by simp)
      · exact ih t h1

theorem mergeScan_score_zero : ∀ ts : List Tile, (∀ t ∈ ts, 0 < t.value) →
    (mergeScan ts).2 = 0 → (mergeScan ts).1 = ts
  | [], _, _ => rfl
  | [_], _, _ => rfl
  | a :: b :: rest, h, hz => by
    by_cases hm : canMergeWith a b = true
    · exfalso
      have ha := h a (by simp)
      simp only [mergeScan, if_pos hm] at hz
      omega
    · have hz' : (mergeScan (b :: rest)).2 = 0 := by
        simpa only [mergeScan, hm, if_false] using hz
      have ih := mergeScan_score_zero (b :: rest) (fun t ht => h t (by
        rcases List.mem_cons.mp ht with h1 | h1
        · simp [h1]
        · simp [h1])) hz'
      simp only [mergeScan, if_neg hm]
      rw [ih]

end Game2048

namespace Game2048

theorem filterMap_id_compact (ts : List Tile) (k : Nat) :
    (ts.map some ++ List.replicate k none).filterMap id = ts := by
  induction ts with
  | nil =>
    simp only [List.map_nil, List.nil_append]
    induction k with
    | zero => rfl
    | succ k ih => simpa [List.replicate_succ, List.filterMap_cons] using ih
  | cons t ts ih => simpa [List.filterMap_cons] using ih

theorem slideAndMerge_length (line : List (Option Tile)) :
    (slideAndMerge line).1.length = line.length := by
  have h1 := mergeScan_length_le (line.filterMap id)
  have h2 : (line.filterMap id).length ≤ line.length :=
    List.length_filterMap_le id line
  simp only [slideAndMerge, List.length_append, List.length_map,
    List.length_replicate]
  omega

theorem runLine_length (rev : Bool) (line : List (Option Tile)) :
    (runLine rev line).1.length = line.length := by
  cases rev
  · exact slideAndMerge_length line
  · show (slideAndMerge line.reverse).1.reverse.length = line.length
    rw [List.length_reverse, slideAndMerge_length, List.length_reverse]

theorem lineSum_cons (o : Option Tile) (l : List (Option Tile)) :
    lineSum (o :: l) = cellVal o + lineSum l := by
  simp [lineSum]

theorem lineSum_filterMap (l : List (Option Tile)) :
    lineSum l = ((l.filterMap id).map Tile.value).sum := by
  induction l with
  | nil => rfl
  | cons o l ih =>
    cases o with
    | none => simpa [lineSum_cons, List.filterMap_cons, cellVal] using ih
    | some t => simp [lineSum_cons, List.filterMap_cons, cellVal, ih]

theorem lineSum_reverse (l : List (Option Tile)) :
    lineSum l.reverse = lineSum l := by
  simp [lineSum, List.map_reverse, List.sum_reverse]

theorem slideAndMerge_lineSum (line : List (Option Tile)) :
    lineSum (slideAndMerge line).1 = lineSum line := by
  show lineSum ((mergeScan (line.filterMap id)).1.map some ++
    List.replicate (line.length - (mergeScan (line.filterMap id)).1.length) none) = _
  rw [lineSum_filterMap, filterMap_id_compact, mergeScan_sum,
    lineSum_filterMap line]

theorem runLine_lineSum (rev : Bool) (line : List (Option Tile)) :
    lineSum (runLine rev line).1 = lineSum line := by
  cases rev
  · exact slideAndMerge_lineSum line
  · show lineSum (slideAndMerge line.reverse).1.reverse = lineSum line
    rw [lineSum_reverse, slideAndMerge_lineSum, lineSum_reverse]

theorem list_ofFn_getD {α : Type} {n : Nat} (l : List α) (d : α)
    (h : l.length = n) :
    List.ofFn (fun i : Fin n => l.getD (i : Nat) d) = l := by
  subst h
  have he : (fun i : Fin l.length => l.getD (i : Nat) d) =
      fun i : Fin l.length => l.get i := by
    funext i
    rw [List.getD_eq_getElem l d i.isLt]
    simp
  rw [he, List.ofFn_get]

theorem lineOfCol_resolveCols {n : Nat} (rev : Bool) (g : BoardGrid n)
    (c : Fin n) :
    lineOfCol (resolveCols rev g).grid c = (runLine rev (lineOfCol g c)).1 := by
  show List.ofFn (fun r : Fin n => (runLine rev (lineOfCol g c)).1.getD r none) = _
  exact list_ofFn_getD _ none (by rw [runLine_length]; simp [lineOfCol])

theorem lineOfRow_resolveRows {n : Nat} (rev : Bool) (g : BoardGrid n)
    (r : Fin n) :
    lineOfRow (resolveRows rev g).grid r = (runLine rev (lineOfRow g r)).1 := by
  show List.ofFn (fun c : Fin n => (runLine rev (lineOfRow g r)).1.getD c none) = _
  exact list_ofFn_getD _ none (by rw [runLine_length]; simp [lineOfRow])

theorem lineSum_ofFn {n : Nat} (f : Fin n → Option Tile) :
    lineSum (List.ofFn f) = ∑ i : Fin n, cellVal (f i) := by
  rw [lineSum, List.map_ofFn, Fin.sum_ofFn]
  rfl

theorem sumGrid_eq_sum_cols {n : Nat} (g : BoardGrid n) :
    sumGrid g = ∑ c : Fin n, lineSum (lineOfCol g c) := by
  rw [sumGrid, Fintype.sum_prod_type_right]
  exact Finset.sum_congr rfl fun c _ => (lineSum_ofFn fun r => g r c).symm

theorem sumGrid_eq_sum_rows {n : Nat} (g : BoardGrid n) :
    sumGrid g = ∑ r : Fin n, lineSum (lineOfRow g r) := by
  rw [sumGrid, Fintype.sum_prod_type]
  exact Finset.sum_congr rfl fun r _ => (lineSum_ofFn fun c => g r c).symm

theorem sumGrid_resolveCols {n : Nat} (rev : Bool) (g : BoardGrid n) :
    sumGrid (resolveCols rev g).grid = sumGrid g := by
  rw [sumGrid_eq_sum_cols, sumGrid_eq_sum_cols g]
  refine Finset.sum_congr rfl fun c _ => ?_
  rw [lineOfCol_resolveCols, runLine_lineSum]

theorem sumGrid_resolveRows {n : Nat} (rev : Bool) (g : BoardGrid n) :
    sumGrid (resolveRows rev g).grid = sumGrid g := by
  rw [sumGrid_eq_sum_rows, sumGrid_eq_sum_rows g]
  refine Finset.sum_congr rfl fun r _ => ?_
  rw [lineOfRow_resolveRows, runLine_lineSum]

theorem sumGrid_resetMerged {n : Nat} (g : BoardGrid n) :
    sumGrid (resetMerged g) = sumGrid g := by
  refine Finset.sum_congr rfl fun p _ => ?_
  show cellVal ((g p.1 p.2).map clearTile) = cellVal (g p.1 p.2)
  cases g p.1 p.2 <;> rfl

end Game2048

/-- C5: a move resolution (before any spawn) never decreases the sum of
all tile values on the board; merges replace two tiles of value `v` by
one of value `2v`, so the sum is in fact preserved. -/
theorem C5_sum_nondecreasing {n : Nat} (direction : String)
    (g : Game2048.BoardGrid n) :
    Game2048.sumGrid g ≤
      Game2048.sumGrid (Game2048.moveWithScore direction g).grid := by
  have hr : Game2048.sumGrid (Game2048.moveWithScore direction g).grid =
      Game2048.sumGrid g := by
    unfold Game2048.moveWithScore
    split_ifs <;>
      simp [Game2048.sumGrid_resolveCols, Game2048.sumGrid_resolveRows,
        Game2048.sumGrid_resetMerged]
  omega

namespace Game2048

theorem resolveCols_not_moved {n : Nat} (rev : Bool) (g : BoardGrid n)
    (h : (resolveCols rev g).moved = false) : (resolveCols rev g).grid = g := by
  have h' : ((List.finRange n).any fun c => (List.finRange n).any fun r =>
      g r c != (runLine rev (lineOfCol g c)).1.getD (r : Nat) none) = false := h
  funext r c
  have h1 := List.any_eq_false.mp h' c (List.mem_finRange c)
  have h1' : ((List.finRange n).any fun r =>
      g r c != (runLine rev (lineOfCol g c)).1.getD (r : Nat) none) = false := by
    revert h1
    cases ((List.finRange n).any fun r =>
      g r c != (runLine rev (lineOfCol g c)).1.getD (r : Nat) none) <;> simp
  have h2 := List.any_eq_false.mp h1' r (List.mem_finRange r)
  show (runLine rev (lineOfCol g c)).1.getD (r : Nat) none = g r c
  by_contra hne
  exact h2 (bne_iff_ne.mpr fun he => hne he.symm)

theorem resolveRows_eq_transpose {n : Nat} (rev : Bool) (g : BoardGrid n) :
    resolveRows rev g =
      { grid := transpose (resolveCols rev (transpose g)).grid
        moved := (resolveCols rev (transpose g)).moved
        score := (resolveCols rev (transpose g)).score } := rfl

theorem resolveRows_not_moved {n : Nat} (rev : Bool) (g : BoardGrid n)
    (h : (resolveRows rev g).moved = false) : (resolveRows rev g).grid = g := by
  rw [resolveRows_eq_transpose] at h ⊢
  have := resolveCols_not_moved rev (transpose g) h
  show transpose (resolveCols rev (transpose g)).grid = g
  rw [this]
  rfl

theorem resetMerged_mapValue {n : Nat} (g : BoardGrid n) (r c : Fin n) :
    ((resetMerged g) r c).map Tile.value = (g r c).map Tile.value := by
  show ((g r c).map clearTile).map Tile.value = _
  cases g r c <;> rfl

end Game2048

/-- C4: a move resolution that reports `moved = false` leaves every cell
with exactly the occupant it had before the call — same presence and
same value at every coordinate; there is no partially transformed
state. -/
theorem C4_not_moved_grid_unchanged {n : Nat} (direction : String)
    (g : Game2048.BoardGrid n)
    (h : (Game2048.moveWithScore direction g).moved = false) :
    ∀ r c : Fin n,
      ((Game2048.moveWithScore direction g).grid r c).map Game2048.Tile.value =
        (g r c).map Game2048.Tile.value := by
  intro r c
  unfold Game2048.moveWithScore at h ⊢
  split_ifs with h1 h2 h3 h4
  · rw [Game2048.resolveCols_not_moved false _ (by simpa [h1] using h)]
    exact Game2048.resetMerged_mapValue g r c
  · rw [Game2048.resolveCols_not_moved true _ (by simp_all)]
    exact Game2048.resetMerged_mapValue g r c
  · rw [Game2048.resolveRows_not_moved false _ (by simp_all)]
    exact Game2048.resetMerged_mapValue g r c
  · rw [Game2048.resolveRows_not_moved true _ (by simp_all)]
    exact Game2048.resetMerged_mapValue g r c
  · exact Game2048.resetMerged_mapValue g r c

/-- Witness for C4: moving the `[2,2,2,2]`-top-row grid up is a no-op
(`moved = false`) and indeed changes no cell's presence or value. -/
theorem C4_not_moved_grid_unchanged_witness :
    (Game2048.moveWithScore "up" Game2048.rowOfTwos).moved = false ∧
      ∀ r c : Fin 4,
        ((Game2048.moveWithScore "up" Game2048.rowOfTwos).grid r c).map
            Game2048.Tile.value =
          (Game2048.rowOfTwos r c).map Game2048.Tile.value :=
  ⟨by decide, C4_not_moved_grid_unchanged "up" Game2048.rowOfTwos (by decide)⟩

namespace Game2048

theorem getD_ofFn {n : Nat} (f : Fin n → Option Tile) (i : Fin n) :
    (List.ofFn f).getD (i : Nat) none = f i := by
  have h : (i : Nat) < (List.ofFn f).length := by
    simpa using i.isLt
  rw [List.getD_eq_getElem _ _ h, List.getElem_ofFn]

theorem map_clear_compact (ts : List Tile) (k : Nat) :
    (ts.map some ++ List.replicate k none).map (Option.map clearTile) =
      (ts.map clearTile).map some ++ List.replicate k none := by
  simp [List.map_append, List.map_map, List.map_replicate]

theorem clearTile_value (t : Tile) : (clearTile t).value = t.value := rfl

theorem slideAndMerge_second (line : List (Option Tile))
    (hpos : ∀ t ∈ line.filterMap id, 0 < t.value)
    (hz : (slideAndMerge ((slideAndMerge line).1.map (Option.map clearTile))).2 = 0) :
    (slideAndMerge ((slideAndMerge line).1.map (Option.map clearTile))).1 =
      (slideAndMerge line).1.map (Option.map clearTile) := by
  have hout : (slideAndMerge line).1 =
      (mergeScan (line.filterMap id)).1.map some ++
        List.replicate (line.length - (mergeScan (line.filterMap id)).1.length)
          none := rfl
  set m := (mergeScan (line.filterMap id)).1 with hm
  set k := line.length - m.length with hk
  have hl2 : (slideAndMerge line).1.map (Option.map clearTile) =
      (m.map clearTile).map some ++ List.replicate k none := by
    rw [hout, map_clear_compact]
  have harr2 : ((slideAndMerge line).1.map (Option.map clearTile)).filterMap id =
      m.map clearTile := by
    rw [hl2, filterMap_id_compact]
  have hmpos : ∀ t ∈ m, 0 < t.value := mergeScan_pos (line.filterMap id) hpos
  have hcpos : ∀ t ∈ m.map clearTile, 0 < t.value := by
    intro t ht
    rcases List.mem_map.mp ht with ⟨u, hu, he⟩
    rw [← he, clearTile_value]
    exact hmpos u hu
  have hz' : (mergeScan (m.map clearTile)).2 = 0 := by
    have : (slideAndMerge ((slideAndMerge line).1.map (Option.map clearTile))).2 =
        (mergeScan (m.map clearTile)).2 := by
      show (mergeScan (((slideAndMerge line).1.map (Option.map clearTile)).filterMap id)).2 = _
      rw [harr2]
    rw [← this]
    exact hz
  have hfix : (mergeScan (m.map clearTile)).1 = m.map clearTile :=
    mergeScan_score_zero (m.map clearTile) hcpos hz'
  have hlen2 : ((slideAndMerge line).1.map (Option.map clearTile)).length =
      line.length := by
    rw [List.length_map, slideAndMerge_length]
  show (mergeScan (((slideAndMerge line).1.map (Option.map clearTile)).filterMap id)).1.map some ++
      List.replicate (((slideAndMerge line).1.map (Option.map clearTile)).length -
        (mergeScan (((slideAndMerge line).1.map (Option.map clearTile)).filterMap id)).1.length)
        none = _
  rw [harr2, hfix, hlen2, hl2, List.length_map]

end Game2048

namespace Game2048

theorem runLine_second (rev : Bool) (line : List (Option Tile))
    (hpos : ∀ t ∈ line.filterMap id, 0 < t.value)
    (hz : (runLine rev ((runLine rev line).1.map (Option.map clearTile))).2 = 0) :
    (runLine rev ((runLine rev line).1.map (Option.map clearTile))).1 =
      (runLine rev line).1.map (Option.map clearTile) := by
  cases rev
  · exact slideAndMerge_second line hpos hz
  · have hrev : ((runLine true line).1.map (Option.map clearTile)).reverse =
        (slideAndMerge line.reverse).1.map (Option.map clearTile) := by
      show ((slideAndMerge line.reverse).1.reverse.map (Option.map clearTile)).reverse = _
      rw [← List.map_reverse, List.reverse_reverse]
    have hpos' : ∀ t ∈ line.reverse.filterMap id, 0 < t.value := by
      intro t ht
      rw [List.filterMap_reverse] at ht
      exact hpos t (List.mem_reverse.mp ht)
    have hz' : (slideAndMerge ((slideAndMerge line.reverse).1.map
        (Option.map clearTile))).2 = 0 := by
      have he : (runLine true ((runLine true line).1.map (Option.map clearTile))).2 =
          (slideAndMerge (((runLine true line).1.map (Option.map clearTile)).reverse)).2 :=
        rfl
      rw [he, hrev] at hz
      exact hz
    have hfix := slideAndMerge_second line.reverse hpos' hz'
    show (slideAndMerge (((runLine true line).1.map (Option.map clearTile)).reverse)).1.reverse = _
    rw [hrev, hfix, ← hrev, List.reverse_reverse]

theorem validGrid_resetMerged {n : Nat} {g : BoardGrid n} (hg : validGrid g) :
    validGrid (resetMerged g) := by
  intro r c t h
  have h' : (g r c).map clearTile = some t := h
  rcases Option.map_eq_some'.mp h' with ⟨u, hu, he⟩
  rw [← he, clearTile_value]
  exact hg r c u hu

theorem validGrid_transpose {n : Nat} {g : BoardGrid n} (hg : validGrid g) :
    validGrid (transpose g) := fun r c t h => hg c r t h

theorem lineOfCol_pos {n : Nat} {g : BoardGrid n} (hg : validGrid g) (c : Fin n) :
    ∀ t ∈ (lineOfCol g c).filterMap id, 0 < t.value := by
  intro t ht
  rcases List.mem_filterMap.mp ht with ⟨o, ho, he⟩
  rcases Set.mem_range.mp ((List.mem_ofFn _ _).mp ho) with ⟨r, hr⟩
  exact hg r c t (hr.trans he)

theorem lineOfCol_resetMerged {n : Nat} (g : BoardGrid n) (c : Fin n) :
    lineOfCol (resetMerged g) c = (lineOfCol g c).map (Option.map clearTile) := by
  show List.ofFn (fun r => (g r c).map clearTile) = _
  rw [lineOfCol, List.map_ofFn]
  rfl

theorem resolveCols_second {n : Nat} (rev : Bool) (g : BoardGrid n)
    (hg : validGrid g)
    (hz : (resolveCols rev (resetMerged (resolveCols rev g).grid)).score = 0) :
    (resolveCols rev (resetMerged (resolveCols rev g).grid)).moved = false := by
  set g2 := resetMerged (resolveCols rev g).grid with hg2
  have hline2 : ∀ c : Fin n, lineOfCol g2 c =
      ((runLine rev (lineOfCol g c)).1).map (Option.map clearTile) := by
    intro c
    rw [hg2, lineOfCol_resetMerged, lineOfCol_resolveCols]
  have hsc : ∀ c : Fin n, (runLine rev (lineOfCol g2 c)).2 = 0 := by
    intro c
    have hz' : (((List.finRange n).map fun c =>
        (runLine rev (lineOfCol g2 c)).2).sum = 0) := hz
    exact List.sum_eq_zero_iff.mp hz' _
      (List.mem_map.mpr ⟨c, List.mem_finRange c, rfl⟩)
  have hfix : ∀ c : Fin n, (runLine rev (lineOfCol g2 c)).1 = lineOfCol g2 c := by
    intro c
    have h1 := runLine_second rev (lineOfCol g c) (lineOfCol_pos hg c)
    rw [← hline2 c] at h1
    exact h1 (hsc c)
  show ((List.finRange n).any fun c => (List.finRange n).any fun r =>
      g2 r c != (runLine rev (lineOfCol g2 c)).1.getD (r : Nat) none) = false
  rw [List.any_eq_false]
  intro c _
  simp only [List.any_eq_true, not_exists, not_and]
  intro r _
  rw [hfix c]
  have hgd : (lineOfCol g2 c).getD (r : Nat) none = g2 r c := getD_ofFn _ r
  rw [hgd, bne_self_eq_false]
  simp

end Game2048

namespace Game2048

theorem resolveRows_second {n : Nat} (rev : Bool) (g : BoardGrid n)
    (hg : validGrid g)
    (hz : (resolveRows rev (resetMerged (resolveRows rev g).grid)).score = 0) :
    (resolveRows rev (resetMerged (resolveRows rev g).grid)).moved = false := by
  have hkey : resolveRows rev (resetMerged (resolveRows rev g).grid) =
      { grid := transpose (resolveCols rev
          (resetMerged (resolveCols rev (transpose g)).grid)).grid
        moved := (resolveCols rev
          (resetMerged (resolveCols rev (transpose g)).grid)).moved
        score := (resolveCols rev
          (resetMerged (resolveCols rev (transpose g)).grid)).score } := rfl
  rw [hkey] at hz ⊢
  exact resolveCols_second rev (transpose g) (validGrid_transpose hg) hz

theorem moveWithScore_up {n : Nat} (g : BoardGrid n) :
    moveWithScore "up" g = resolveCols false (resetMerged g) := rfl

theorem moveWithScore_down {n : Nat} (g : BoardGrid n) :
    moveWithScore "down" g = resolveCols true (resetMerged g) := rfl

theorem moveWithScore_left {n : Nat} (g : BoardGrid n) :
    moveWithScore "left" g = resolveRows false (resetMerged g) := rfl

theorem moveWithScore_right {n : Nat} (g : BoardGrid n) :
    moveWithScore "right" g = resolveRows true (resetMerged g) := rfl

end Game2048

/-- C2 (amended): a second resolution in the same direction with no
intervening spawn need not report `moved = false` in general (see the
counterexample: newly adjacent equal tiles merge again); what holds is
that the second resolution reports `moved = false` whenever it performs
no merge, i.e. whenever its own `scoreDelta` is 0.  Tile values are
assumed positive, per the data model of spec §3. -/
theorem C2_second_resolution_stable {n : Nat} (direction : String)
    (g : Game2048.BoardGrid n) (hg : Game2048.validGrid g)
    (hz : (Game2048.moveWithScore direction
      (Game2048.moveWithScore direction g).grid).score = 0) :
    (Game2048.moveWithScore direction
      (Game2048.moveWithScore direction g).grid).moved = false := by
  by_cases h1 : direction = "up"
  · subst h1
    simp only [Game2048.moveWithScore_up] at hz ⊢
    exact Game2048.resolveCols_second false _ (Game2048.validGrid_resetMerged hg) hz
  by_cases h2 : direction = "down"
  · subst h2
    simp only [Game2048.moveWithScore_down] at hz ⊢
    exact Game2048.resolveCols_second true _ (Game2048.validGrid_resetMerged hg) hz
  by_cases h3 : direction = "left"
  · subst h3
    simp only [Game2048.moveWithScore_left] at hz ⊢
    exact Game2048.resolveRows_second false _ (Game2048.validGrid_resetMerged hg) hz
  by_cases h4 : direction = "right"
  · subst h4
    simp only [Game2048.moveWithScore_right] at hz ⊢
    exact Game2048.resolveRows_second true _ (Game2048.validGrid_resetMerged hg) hz
  have hinv : Game2048.moveWithScore direction
      ((Game2048.moveWithScore direction g).grid) =
      { grid := Game2048.resetMerged ((Game2048.moveWithScore direction g).grid)
        moved := false
        score := 0 } := by
    unfold Game2048.moveWithScore
    simp only [h1, h2, h3, h4, if_false]
  rw [hinv]

/-- Witness for C2 (amended) on the empty 4×4 grid: both hypotheses hold
(vacuous validity, zero score) and the second resolution reports
`moved = false`. -/
theorem C2_second_resolution_stable_witness :
    (Game2048.moveWithScore "left"
      (Game2048.moveWithScore "left" (Game2048.emptyGrid 4)).grid).score = 0 ∧
    (Game2048.moveWithScore "left"
      (Game2048.moveWithScore "left" (Game2048.emptyGrid 4)).grid).moved = false :=
  ⟨by decide, C2_second_resolution_stable "left" (Game2048.emptyGrid 4)
    (fun _ _ t h => Option.noConfusion h) (by decide)⟩

namespace Game2048

theorem cellAt_some_iff {n : Nat} (g : BoardGrid n) (nr nc : Int) (u : Tile) :
    cellAt g nr nc = some u ↔
      ∃ (r' c' : Fin n), ((r' : Nat) : Int) = nr ∧ ((c' : Nat) : Int) = nc ∧
        g r' c' = some u := by
  unfold cellAt
  split
  next h =>
    constructor
    · intro he
      exact ⟨⟨nr.toNat, by omega⟩, ⟨nc.toNat, by omega⟩, by simp; omega,
        by simp; omega, he⟩
    · rintro ⟨r', c', h1, h2, h3⟩
      have hr : r' = (⟨nr.toNat, by omega⟩ : Fin n) :=
        Fin.ext (show (r' : Nat) = nr.toNat by omega)
      have hc : c' = (⟨nc.toNat, by omega⟩ : Fin n) :=
        Fin.ext (show (c' : Nat) = nc.toNat by omega)
      rw [← hr, ← hc]
      exact h3
  next h =>
    constructor
    · intro he
      exact absurd he (by simp)
    · rintro ⟨r', c', h1, h2, h3⟩
      exfalso
      apply h
      have hr := r'.isLt
      have hc := c'.isLt
      refine ⟨by omega, by omega, by omega, by omega⟩

theorem neighborEqualValue_true_iff {n : Nat} (g : BoardGrid n) (t : Tile)
    (r c : Fin n) (d : Int × Int) :
    neighborEqualValue g t r c d = true ↔
      ∃ u : Tile, cellAt g ((r : Nat) + d.1) ((c : Nat) + d.2) = some u ∧
        t.value = u.value := by
  unfold neighborEqualValue
  cases hcell : cellAt g ((r : Nat) + d.1) ((c : Nat) + d.2) with
  | none => simp
  | some u => simp [beq_iff_eq]

end Game2048

/-- C3: `hasMoves` returns true exactly when some cell is empty or some
pair of 4-neighboring cells (up/down/left/right, not diagonal) holds
tiles of equal value; equivalently it returns false exactly on a
completely full grid with no adjacent equal-value pair. -/
theorem C3_hasMoves_iff {n : Nat} (g : Game2048.BoardGrid n) :
    Game2048.hasMoves g = true ↔
      (∃ p : Fin n × Fin n, g p.1 p.2 = none) ∨
      (∃ p q : Fin n × Fin n, Game2048.adjacentCoords p q ∧
        ∃ t u : Game2048.Tile, g p.1 p.2 = some t ∧ g q.1 q.2 = some u ∧
          t.value = u.value) := by
  unfold Game2048.hasMoves
  rw [List.any_eq_true]
  constructor
  · rintro ⟨r, -, hr⟩
    rw [List.any_eq_true] at hr
    obtain ⟨c, -, hc⟩ := hr
    cases hgc : g r c with
    | none => exact Or.inl ⟨(r, c), hgc⟩
    | some t =>
      rw [hgc] at hc
      rw [List.any_eq_true] at hc
      obtain ⟨d, hd, hne⟩ := hc
      obtain ⟨u, hcell, hv⟩ :=
        (Game2048.neighborEqualValue_true_iff g t r c d).mp hne
      obtain ⟨r', c', h1, h2, hg'⟩ :=
        (Game2048.cellAt_some_iff g _ _ u).mp hcell
      refine Or.inr ⟨(r, c), (r', c'), ?_, t, u, hgc, hg', hv⟩
      unfold Game2048.adjacentCoords
      dsimp only
      simp only [Game2048.neighborOffsets, List.mem_cons, List.mem_singleton] at hd
      rcases hd with rfl | rfl | rfl | rfl | h0
      · dsimp only at h1 h2
        exact Or.inl ⟨Fin.ext (by omega), Or.inl (by omega)⟩
      · dsimp only at h1 h2
        exact Or.inr ⟨Fin.ext (by omega), Or.inl (by omega)⟩
      · dsimp only at h1 h2
        exact Or.inr ⟨Fin.ext (by omega), Or.inr (by omega)⟩
      · dsimp only at h1 h2
        exact Or.inl ⟨Fin.ext (by omega), Or.inr (by omega)⟩
      · exact absurd h0 (List.not_mem_nil d)
  · rintro (⟨⟨r, c⟩, hempty⟩ | ⟨⟨r, c⟩, ⟨r', c'⟩, hadj, t, u, ht, hu, hv⟩)
    · refine ⟨r, List.mem_finRange r, ?_⟩
      rw [List.any_eq_true]
      refine ⟨c, List.mem_finRange c, ?_⟩
      rw [hempty]
    · dsimp only at ht hu
      refine ⟨r, List.mem_finRange r, ?_⟩
      rw [List.any_eq_true]
      refine ⟨c, List.mem_finRange c, ?_⟩
      rw [ht]
      rw [List.any_eq_true]
      rcases hadj with ⟨hrr, hcc | hcc⟩ | ⟨hcc2, hrr2 | hrr2⟩
      · dsimp only at hrr hcc
        have hrN : (r : Nat) = (r' : Nat) := congrArg Fin.val hrr
        refine ⟨(0, 1), by simp [Game2048.neighborOffsets], ?_⟩
        rw [Game2048.neighborEqualValue_true_iff]
        refine ⟨u, (Game2048.cellAt_some_iff g _ _ u).mpr
          ⟨r', c', by dsimp only; omega, by dsimp only; omega, hu⟩, hv⟩
      · dsimp only at hrr hcc
        have hrN : (r : Nat) = (r' : Nat) := congrArg Fin.val hrr
        refine ⟨(0, -1), by simp [Game2048.neighborOffsets], ?_⟩
        rw [Game2048.neighborEqualValue_true_iff]
        refine ⟨u, (Game2048.cellAt_some_iff g _ _ u).mpr
          ⟨r', c', by dsimp only; omega, by dsimp only; omega, hu⟩, hv⟩
      · dsimp only at hcc2 hrr2
        have hcN : (c : Nat) = (c' : Nat) := congrArg Fin.val hcc2
        refine ⟨(1, 0), by simp [Game2048.neighborOffsets], ?_⟩
        rw [Game2048.neighborEqualValue_true_iff]
        refine ⟨u, (Game2048.cellAt_some_iff g _ _ u).mpr
          ⟨r', c', by dsimp only; omega, by dsimp only; omega, hu⟩, hv⟩
      · dsimp only at hcc2 hrr2
        have hcN : (c : Nat) = (c' : Nat) := congrArg Fin.val hcc2
        refine ⟨(-1, 0), by simp [Game2048.neighborOffsets], ?_⟩
        rw [Game2048.neighborEqualValue_true_iff]
        refine ⟨u, (Game2048.cellAt_some_iff g _ _ u).mpr
          ⟨r', c', by dsimp only; omega, by dsimp only; omega, hu⟩, hv⟩

namespace Game2048

theorem mem_getEmptyCells {n : Nat} (g : BoardGrid n) (p : Fin n × Fin n) :
    p ∈ getEmptyCells g ↔ g p.1 p.2 = none := by
  unfold getEmptyCells
  rw [List.mem_flatMap]
  constructor
  · rintro ⟨r, -, hp⟩
    rcases List.mem_filterMap.mp hp with ⟨c, -, hc⟩
    by_cases hg : g r c = none
    · rw [if_pos hg] at hc
      cases Option.some.inj hc
      exact hg
    · rw [if_neg hg] at hc
      exact absurd hc (by simp)
  · intro hg
    exact ⟨p.1, List.mem_finRange _,
      List.mem_filterMap.mpr ⟨p.2, List.mem_finRange _, by rw [if_pos hg]⟩⟩

theorem getEmptyCells_eq_nil {n : Nat} (g : BoardGrid n)
    (hfull : ∀ r c : Fin n, g r c ≠ none) : getEmptyCells g = [] := by
  refine List.eq_nil_iff_forall_not_mem.mpr fun p hp => ?_
  exact hfull p.1 p.2 ((mem_getEmptyCells g p).mp hp)

theorem get_not_mem_eraseIdx {α : Type} (l : List α) (hl : l.Nodup) (k : Nat)
    (h : k < l.length) : l.get ⟨k, h⟩ ∉ l.eraseIdx k := by
  intro hmem
  rcases List.mem_eraseIdx_iff_getElem.mp hmem with ⟨i, hi, hik, he⟩
  rw [List.get_eq_getElem] at he
  exact hik ((hl.getElem_inj_iff).mp he)

theorem getEmptyCells_emptyGrid (n : Nat) :
    getEmptyCells (emptyGrid n) =
      (List.finRange n).flatMap fun r => (List.finRange n).map fun c => (r, c) := by
  unfold getEmptyCells
  refine congrArg _ (funext fun r => ?_)
  have he : (fun c : Fin n => if emptyGrid n r c = none then some (r, c) else none) =
      fun c : Fin n => (some ∘ fun c => (r, c)) c := by
    funext c
    simp [emptyGrid, Function.comp]
  rw [he, List.filterMap_eq_map]

theorem length_getEmptyCells_emptyGrid (n : Nat) :
    (getEmptyCells (emptyGrid n)).length = n * n := by
  rw [getEmptyCells_emptyGrid, List.length_flatMap]
  simp [Function.comp_def]

theorem nodup_getEmptyCells_emptyGrid (n : Nat) :
    (getEmptyCells (emptyGrid n)).Nodup := by
  rw [getEmptyCells_emptyGrid]
  show ((List.finRange n) ×ˢ (List.finRange n)).Nodup
  exact (List.nodup_finRange n).product (List.nodup_finRange n)

end Game2048

/-- C7: on a grid with no empty cell, `addRandomTile` returns false and
leaves every cell unchanged; on a grid with at least one empty cell it
returns true and places one fresh tile of value 2 or 4 (per the injected
90/10 draw) in a previously empty cell, leaving every other cell — in
particular every occupied cell — unchanged. -/
theorem C7_addRandomTile_spec {n : Nat} (g : Game2048.BoardGrid n)
    (i : Nat) (four : Bool) :
    ((∀ r c : Fin n, g r c ≠ none) →
      Game2048.addRandomTile i four g = (g, false)) ∧
    ((∃ r c : Fin n, g r c = none) →
      (Game2048.addRandomTile i four g).2 = true ∧
      ∃ p : Fin n × Fin n, g p.1 p.2 = none ∧
        (Game2048.addRandomTile i four g).1 p.1 p.2 =
          some ⟨if four then 4 else 2, false⟩ ∧
        ∀ q : Fin n × Fin n, q ≠ p →
          (Game2048.addRandomTile i four g).1 q.1 q.2 = g q.1 q.2) := by
  constructor
  · intro hfull
    have hnil : Game2048.getEmptyCells g = [] :=
      Game2048.getEmptyCells_eq_nil g hfull
    unfold Game2048.addRandomTile
    rw [dif_pos (by rw [hnil]; rfl)]
  · rintro ⟨r, c, hrc⟩
    have hmem : (r, c) ∈ Game2048.getEmptyCells g :=
      (Game2048.mem_getEmptyCells g (r, c)).mpr hrc
    have hlen : ¬(Game2048.getEmptyCells g).length = 0 := by
      intro h0
      rw [List.length_eq_zero.mp h0] at hmem
      exact absurd hmem (List.not_mem_nil _)
    unfold Game2048.addRandomTile
    rw [dif_neg hlen]
    refine ⟨rfl, (Game2048.getEmptyCells g).get
      ⟨i % (Game2048.getEmptyCells g).length,
        Nat.mod_lt _ (Nat.pos_of_ne_zero hlen)⟩, ?_, ?_, ?_⟩
    · exact (Game2048.mem_getEmptyCells g _).mp (List.get_mem _ _ _)
    · show (if _ ∧ _ then _ else _) = _
      rw [if_pos ⟨rfl, rfl⟩]
    · intro q hq
      show (if _ ∧ _ then _ else _) = _
      rw [if_neg fun hqp => hq (Prod.ext hqp.1 hqp.2)]

/-- Witness for C7 at a full 4×4 grid of 2-tiles (spawn fails, grid kept)
and at the empty 4×4 grid (spawn succeeds). -/
theorem C7_addRandomTile_spec_witness :
    (Game2048.addRandomTile 0 false
        (fun _ _ => some ⟨2, false⟩ : Game2048.BoardGrid 4) =
      ((fun _ _ => some ⟨2, false⟩), false)) ∧
    ((Game2048.addRandomTile 0 false (Game2048.emptyGrid 4)).2 = true ∧
      ∃ p : Fin 4 × Fin 4, Game2048.emptyGrid 4 p.1 p.2 = none ∧
        (Game2048.addRandomTile 0 false (Game2048.emptyGrid 4)).1 p.1 p.2 =
          some ⟨if false then 4 else 2, false⟩ ∧
        ∀ q : Fin 4 × Fin 4, q ≠ p →
          (Game2048.addRandomTile 0 false (Game2048.emptyGrid 4)).1 q.1 q.2 =
            Game2048.emptyGrid 4 q.1 q.2) :=
  ⟨(C7_addRandomTile_spec (fun _ _ => some ⟨2, false⟩) 0 false).1
      (fun _ _ h => Option.noConfusion h),
    (C7_addRandomTile_spec (Game2048.emptyGrid 4) 0 false).2 ⟨0, 0, rfl⟩⟩

namespace Game2048

theorem reset_cells {n : Nat} (i1 i2 : Nat)
    (hge : ¬((getEmptyCells (emptyGrid n)).length < 2)) :
    ∃ p1 p2 : Fin n × Fin n, p1 ≠ p2 ∧
      reset (n := n) i1 i2 = fun r c =>
        if r = p2.1 ∧ c = p2.2 then some ⟨2, false⟩
        else if r = p1.1 ∧ c = p1.2 then some ⟨2, false⟩ else none := by
  have hnodup := nodup_getEmptyCells_emptyGrid n
  refine ⟨(getEmptyCells (emptyGrid n)).get
      ⟨i1 % (getEmptyCells (emptyGrid n)).length, Nat.mod_lt _ (by omega)⟩,
    ((getEmptyCells (emptyGrid n)).eraseIdx
        (i1 % (getEmptyCells (emptyGrid n)).length)).get
      ⟨i2 % ((getEmptyCells (emptyGrid n)).eraseIdx
          (i1 % (getEmptyCells (emptyGrid n)).length)).length,
        Nat.mod_lt _ (by
          have he : ((getEmptyCells (emptyGrid n)).eraseIdx
              (i1 % (getEmptyCells (emptyGrid n)).length)).length =
              (getEmptyCells (emptyGrid n)).length - 1 :=
            List.length_eraseIdx_of_lt (Nat.mod_lt _ (by omega))
          omega)⟩, ?_, ?_⟩
  · intro he
    apply get_not_mem_eraseIdx (getEmptyCells (emptyGrid n)) hnodup
      (i1 % (getEmptyCells (emptyGrid n)).length) (Nat.mod_lt _ (by omega))
    rw [he]
    exact List.get_mem _ _ _
  · unfold reset
    rw [dif_neg hge]
    rfl

end Game2048

/-- Counterexample to C6 as stated for every board: on a size-1 board
(one cell), `reset` places no tile at all — the guard
`empty.length < 2` fires — so no two distinct occupied coordinates
exist. -/
theorem C6_counterexample_size_one :
    ¬(∃ p q : Fin 1 × Fin 1, p ≠ q ∧
        Game2048.reset (n := 1) 0 0 p.1 p.2 = some ⟨2, false⟩ ∧
        Game2048.reset (n := 1) 0 0 q.1 q.2 = some ⟨2, false⟩ ∧
        ∀ x : Fin 1 × Fin 1, x ≠ p → x ≠ q →
          Game2048.reset (n := 1) 0 0 x.1 x.2 = none) := by
  decide

/-- C6 (amended): for every board of size at least 2, after `reset` the
grid has exactly two occupied cells, both holding tiles of value 2, at
two distinct coordinates; every other cell is empty. -/
theorem C6_reset_two_tiles {n : Nat} (i1 i2 : Nat) (hn : 2 ≤ n) :
    ∃ p q : Fin n × Fin n, p ≠ q ∧
      Game2048.reset (n := n) i1 i2 p.1 p.2 = some ⟨2, false⟩ ∧
      Game2048.reset (n := n) i1 i2 q.1 q.2 = some ⟨2, false⟩ ∧
      ∀ x : Fin n × Fin n, x ≠ p → x ≠ q →
        Game2048.reset (n := n) i1 i2 x.1 x.2 = none := by
  have hlen := Game2048.length_getEmptyCells_emptyGrid n
  have h22 : 2 * 2 ≤ n * n := Nat.mul_le_mul hn hn
  have hge : ¬((Game2048.getEmptyCells (Game2048.emptyGrid n)).length < 2) := by
    omega
  obtain ⟨p1, p2, hne, hres⟩ := Game2048.reset_cells i1 i2 hge
  refine ⟨p2, p1, fun h => hne h.symm, ?_, ?_, ?_⟩
  · rw [hres]
    dsimp only
    rw [if_pos ⟨rfl, rfl⟩]
  · rw [hres]
    dsimp only
    rw [if_neg fun hh => hne (Prod.ext hh.1 hh.2)]
    rw [if_pos ⟨rfl, rfl⟩]
  · intro x hxp2 hxp1
    rw [hres]
    dsimp only
    rw [if_neg fun hh => hxp2 (Prod.ext hh.1 hh.2)]
    rw [if_neg fun hh => hxp1 (Prod.ext hh.1 hh.2)]

/-- Witness for C6 (amended) on the classic 4×4 board with both injected
random indices 0. -/
theorem C6_reset_two_tiles_witness :
    2 ≤ 4 ∧ ∃ p q : Fin 4 × Fin 4, p ≠ q ∧
      Game2048.reset (n := 4) 0 0 p.1 p.2 = some ⟨2, false⟩ ∧
      Game2048.reset (n := 4) 0 0 q.1 q.2 = some ⟨2, false⟩ ∧
      ∀ x : Fin 4 × Fin 4, x ≠ p → x ≠ q →
        Game2048.reset (n := 4) 0 0 x.1 x.2 = none :=
  ⟨by decide, C6_reset_two_tiles 0 0 (by decide)⟩

/-- C9 (code bug): the spec requires construction with non-positive size
to fail fast with a configuration error, but the `Board` constructor
performs no validation: `new Board(0)` or `new Board(-5)` silently
produces a usable object with a degenerate empty grid and raises no
error. -/
theorem C9_constructor_accepts_nonpositive_size :
    Game2048.createBoardJs 0 = [] ∧ Game2048.createBoardJs (-5) = [] :=
  ⟨rfl, rfl⟩
